import Mathlib

/-!
Verification of the scrape-parse-reconcile pipeline of the GymCrowd backend
(`apps/gyms/scraper.py` together with the `Gym`/`CrowdData` models of
`apps/gyms/models.py`).

The development shallowly embeds the Python code:

* Python `str` values are modelled as `List Char` (with `String` at the
  boundaries); `str.strip`, `str.split`, `str.replace`, `int(...)`,
  `float(...)` and `datetime.strptime(..., "%m/%d/%Y %I:%M %p")` are given
  executable models below (`stripL`, `splitL`, `pyIntL`, `pyFloatL`,
  `strptimeMDYHM`).
* A BeautifulSoup facility fragment (`div.barChart`) is modelled by its two
  observations the scraper makes of it: its full text content and the text of
  the nested `span.barChart__value` element when present.
* Python floats are modelled as exact decimal values `mantissa / 10 ^ shift`
  as parsed from the source text; the pipeline only stores these values and
  never computes with them, so no rounding behaviour is involved.
* Exceptions are modelled with `Option`/`Except`; the `try/except` blocks of
  the scraper become total functions that skip the failing item.
* The Django ORM calls are modelled against a list-of-rows store:
  `Gym.objects.get(name=...)` is `lookupGym` and
  `CrowdData.objects.update_or_create(gym=..., defaults=...)` is
  `update_or_create`.  Following `models.py`, `CrowdData.last_updated` is a
  non-nullable column, so an upsert whose `last_updated` value is `None`
  fails (the database rejects it) and is caught by the scraper's
  `except Exception` handler, leaving the store unchanged.
-/

/-- The whitespace characters stripped by Python's `str.strip()`. -/
def pyIsSpace (c : Char) : Bool :=
  c = ' ' || c = '\t' || c = '\n' || c = '\r' || c = '\x0b' || c = '\x0c'

/-- Model of Python `str.strip()` on character lists. -/
def stripL (cs : List Char) : List Char :=
  ((cs.dropWhile pyIsSpace).reverse.dropWhile pyIsSpace).reverse

/-- If `sep` is a leading run of `cs`, return the remainder of `cs`. -/
def takeLead : List Char → List Char → Option (List Char)
  | [], cs => some cs
  | _ :: _, [] => none
  | s :: ss, c :: cs => if c = s then takeLead ss cs else none

/-- Worker for `splitL`; `fuel` is initialised to the length of the text, and
structural recursion on it keeps the definition kernel-reducible. -/
def splitLAux (s0 : Char) (sr : List Char) : Nat → List Char → List Char → List (List Char)
  | _, [], acc => [acc.reverse]
  | 0, cs, acc => [acc.reverse ++ cs]
  | fuel + 1, c :: cs, acc =>
    if c = s0 then
      match takeLead sr cs with
      | some rest => acc.reverse :: splitLAux s0 sr fuel rest []
      | none => splitLAux s0 sr fuel cs (c :: acc)
    else splitLAux s0 sr fuel cs (c :: acc)

/-- Model of Python `str.split(sep)` for a non-empty separator: split on every
occurrence, keeping empty pieces. -/
def splitL (sep : List Char) (cs : List Char) : List (List Char) :=
  match sep with
  | [] => [cs]
  | s0 :: sr => splitLAux s0 sr cs.length cs []

/-- Value of a decimal digit string (most significant digit first). -/
def decValue (cs : List Char) : Nat :=
  cs.foldl (fun a c => 10 * a + (c.toNat - 48)) 0

/-- Model of Python `int(s)`: strip whitespace, then an optional sign followed
by at least one decimal digit.  (Underscore digit separators are not
modelled.) -/
def pyIntL (cs : List Char) : Option Int :=
  match stripL cs with
  | [] => none
  | c :: rest =>
    if c = '-' then
      if rest ≠ [] && rest.all Char.isDigit then some (-(decValue rest : Int)) else none
    else if c = '+' then
      if rest ≠ [] && rest.all Char.isDigit then some ((decValue rest : Int)) else none
    else if (c :: rest).all Char.isDigit then some ((decValue (c :: rest) : Int)) else none

/-- A Python float as parsed from decimal text: the exact value
`mantissa / 10 ^ shift`.  The pipeline stores these values without computing
with them, so the exact decimal reading is faithful. -/
structure PyF where
  mantissa : Int
  shift : Nat
deriving DecidableEq, Repr

/-- Model of Python `float(s)` for plain decimal notation: strip whitespace,
optional sign, digits with an optional fractional part.  (Exponent, `inf` and
`nan` forms are not modelled; the scraped values never use them.) -/
def pyFloatL (cs : List Char) : Option PyF :=
  match stripL cs with
  | [] => none
  | t =>
    let (neg, t2) :=
      match t with
      | '-' :: r => (true, r)
      | '+' :: r => (false, r)
      | r => (false, r)
    let ip := t2.takeWhile Char.isDigit
    let rest := t2.dropWhile Char.isDigit
    match rest with
    | [] =>
      if ip = [] then none
      else some ⟨if neg then -(decValue ip : Int) else (decValue ip : Int), 0⟩
    | '.' :: fp =>
      if fp.all Char.isDigit && (ip ≠ [] || fp ≠ []) then
        let m : Nat := decValue ip * 10 ^ fp.length + decValue fp
        some ⟨if neg then -(m : Int) else (m : Int), fp.length⟩
      else none
    | _ => none

/-- A `datetime.datetime` value as used by the scraper (seconds and smaller
are always zero for the `"%m/%d/%Y %I:%M %p"` format). -/
structure DT where
  year : Nat
  month : Nat
  day : Nat
  hour : Nat
  minute : Nat
deriving DecidableEq, Repr

/-- Gregorian leap-year rule, as used by `datetime`. -/
def isLeap (y : Nat) : Bool :=
  y % 4 = 0 && (y % 100 ≠ 0 || y % 400 = 0)

/-- Number of days in a month, as validated by the `datetime` constructor. -/
def daysInMonth (m y : Nat) : Nat :=
  if m = 2 then (if isLeap y then 29 else 28)
  else if m = 4 || m = 6 || m = 9 || m = 11 then 30
  else 31

/-- The range checks performed by the `datetime.datetime` constructor
(`MINYEAR = 1`, `MAXYEAR = 9999`). -/
def validDT (dt : DT) : Bool :=
  1 ≤ dt.year && dt.year ≤ 9999 &&
  1 ≤ dt.month && dt.month ≤ 12 &&
  1 ≤ dt.day && dt.day ≤ daysInMonth dt.month dt.year &&
  dt.hour ≤ 23 && dt.minute ≤ 59

/-- The `datetime` constructor: validate the fields, else raise. -/
def mkDT (y m d h24 mi : Nat) : Option DT :=
  if validDT ⟨y, m, d, h24, mi⟩ then some ⟨y, m, d, h24, mi⟩ else none

/-- Read a maximal run of decimal digits, returning its value, its length and
the rest of the input. -/
def parseDigitsAux (acc len : Nat) : List Char → Nat × Nat × List Char
  | [] => (acc, len, [])
  | c :: cs =>
    if c.isDigit then parseDigitsAux (10 * acc + (c.toNat - 48)) (len + 1) cs
    else (acc, len, c :: cs)

/-- Read a maximal digit run from the front of the input. -/
def parseDigits (cs : List Char) : Nat × Nat × List Char :=
  parseDigitsAux 0 0 cs

/-- Require a literal character, as the format's `/`, `:` and spaces do. -/
def expectChar (c : Char) : List Char → Option (List Char)
  | x :: r => if x = c then some r else none
  | [] => none

/-- The `%p` directive: the remaining input must be exactly `AM` or `PM`,
case-insensitively (`true` means PM).  Being last, it also enforces
`strptime`'s whole-string match. -/
def parseAmPm : List Char → Option Bool
  | [p1, p2] =>
    if p2 = 'M' ∨ p2 = 'm' then
      if p1 = 'A' ∨ p1 = 'a' then some false
      else if p1 = 'P' ∨ p1 = 'p' then some true
      else none
    else none
  | _ => none

/-- The hour conversion `strptime` applies for `%I` with `%p`. -/
def hourFrom12 (h : Nat) (pm : Bool) : Nat :=
  if pm then (if h = 12 then 12 else h + 12)
  else (if h = 12 then 0 else h)

/-- A one-or-two-digit numeric field within a closed range, as the regexes
`strptime` compiles for `%m`, `%d`, `%I` and `%M` accept. -/
def parseNum2 (lo hi : Nat) (cs : List Char) : Option (Nat × List Char) :=
  let p := parseDigits cs
  if 1 ≤ p.2.1 ∧ p.2.1 ≤ 2 ∧ lo ≤ p.1 ∧ p.1 ≤ hi then some (p.1, p.2.2) else none

/-- The exactly-four-digit `%Y` field. -/
def parseNum4 (cs : List Char) : Option (Nat × List Char) :=
  let p := parseDigits cs
  if p.2.1 = 4 then some (p.1, p.2.2) else none

/-- Model of `datetime.strptime(s, "%m/%d/%Y %I:%M %p")`: `%m`, `%d` and `%I`
accept one or two digits within their ranges, `%Y` exactly four digits, `%M`
one or two digits up to 59, and the resulting fields are validated by the
`datetime` constructor.  Any other input is a parse failure (`none`, standing
for the raised `ValueError`). -/
def strptimeMDYHM (cs : List Char) : Option DT :=
  (parseNum2 1 12 cs).bind fun pm =>
  (expectChar '/' pm.2).bind fun r2 =>
  (parseNum2 1 31 r2).bind fun pd =>
  (expectChar '/' pd.2).bind fun r3 =>
  (parseNum4 r3).bind fun py =>
  (expectChar ' ' py.2).bind fun r4 =>
  (parseNum2 1 12 r4).bind fun ph =>
  (expectChar ':' ph.2).bind fun r5 =>
  (parseNum2 0 59 r5).bind fun pmin =>
  (expectChar ' ' pmin.2).bind fun r6 =>
  (parseAmPm r6).bind fun pm12 =>
  mkDT py.1 pm.1 pd.1 (hourFrom12 ph.1 pm12) pmin.1

/-- The decimal digit character for a value below ten. -/
def digitChar : Nat → Char
  | 0 => '0' | 1 => '1' | 2 => '2' | 3 => '3' | 4 => '4'
  | 5 => '5' | 6 => '6' | 7 => '7' | 8 => '8' | _ => '9'

/-- Zero-padded two-digit rendering. -/
def pad2 (n : Nat) : List Char :=
  [digitChar (n / 10), digitChar (n % 10)]

/-- Zero-padded four-digit rendering. -/
def pad4 (n : Nat) : List Char :=
  [digitChar (n / 1000), digitChar (n / 100 % 10), digitChar (n / 10 % 10), digitChar (n % 10)]

/-- The canonical `MM/DD/YYYY hh:mm AM|PM` rendering of a `DT` value (what
`datetime.strftime` would emit for the scraper's format string). -/
def formatDT (dt : DT) : List Char :=
  pad2 dt.month ++ '/' :: pad2 dt.day ++ '/' :: pad4 dt.year ++
    ' ' :: pad2 (if dt.hour % 12 = 0 then 12 else dt.hour % 12) ++
    ':' :: pad2 dt.minute ++ ' ' :: (if dt.hour < 12 then ['A', 'M'] else ['P', 'M'])

example : strptimeMDYHM ("01/15/2024 03:30 PM".data) = some ⟨2024, 1, 15, 15, 30⟩ := by decide
example : strptimeMDYHM ("1/15/2024 3:30 pm".data) = some ⟨2024, 1, 15, 15, 30⟩ := by decide
example : strptimeMDYHM ("02/30/2024 03:30 PM".data) = none := by decide
example : strptimeMDYHM ("13/15/2024 03:30 PM".data) = none := by decide
example : strptimeMDYHM ("01/15/2024 12:05 AM".data) = some ⟨2024, 1, 15, 0, 5⟩ := by decide
example : formatDT ⟨2024, 1, 15, 15, 30⟩ = "01/15/2024 03:30 PM".data := by decide

/-- A row of the `Gym` table: primary key and the unique `name` used as the
join key. -/
structure Gym where
  gym_id : Nat
  name : String
deriving DecidableEq, Repr

/-- The scraper's view of one `div.barChart` fragment: its full text content
(`facility.text`) and the text of the nested `span.barChart__value` element
when one is present (`facility.find("span", class_="barChart__value")`). -/
structure Facility where
  text : String
  valueSpan : Option String
deriving DecidableEq, Repr

/-- One parsed `ExtractedOccupancy` value, before the registry lookup. -/
structure Entry where
  name : String
  occupancy_count : Int
  percentage_full : Option PyF
  updated_at : Option DT
deriving DecidableEq, Repr

/-- One element of the scraper's `data_list`: an entry resolved to a gym's
primary key. -/
structure Resolved where
  gym : Nat
  occupancy : Int
  percentage_full : Option PyF
  last_updated : Option DT
deriving DecidableEq, Repr

/-- A row of the `CrowdData` table.  Per `models.py`, `occupancy` and
`last_updated` are non-nullable and `percentage_full` is nullable. -/
structure CrowdRecord where
  gym : Nat
  occupancy : Int
  percentage_full : Option PyF
  last_updated : DT
deriving DecidableEq, Repr

/-- The `CrowdData` table, one logical row per list element. -/
abbrev Store := List CrowdRecord

/-- The marker before the count value, as used for the name split. -/
def lcMark : String := "Last Count:"

/-- The marker (with trailing space) used for the count split. -/
def lcSpMark : String := "Last Count: "

/-- The marker used to terminate the count substring. -/
def updMark : String := "Updated:"

/-- The marker (with trailing space) used for the updated split. -/
def updSpMark : String := "Updated: "

/-- `"NA"` as a character list. -/
def naL : List Char := ['N', 'A']

/-- `"Unknown"` as a character list. -/
def unknownL : List Char := "Unknown".data

/-- The percentage extraction:
`float(el.text.replace("%", "").strip()) if el and el.text != "NA" else None`.
Outer `none` is a raised `ValueError`; inner `none` is the Python value
`None`. -/
def pctOf : Option String → Option (Option PyF)
  | none => some none
  | some t =>
    if t = "NA" then some none
    else (pyFloatL (stripL (t.data.filter (fun c => c ≠ '%')))).map some

/-- The occupancy parse: `0 if count == "NA" else int(count)`. -/
def occOf (countL : List Char) : Option Int :=
  if countL = naL then some 0 else pyIntL countL

/-- The timestamp parse:
`datetime.strptime(updated, "%m/%d/%Y %I:%M %p") if updated else None`. -/
def updOf (updatedText : List Char) : Option (Option DT) :=
  if updatedText = [] then some none
  else (strptimeMDYHM updatedText).map some

/-- The body of the scraper's per-facility `try` block, up to (but not
including) the `Gym.objects.get` lookup.  `none` is any exception caught by
the `except Exception` handler. -/
def extractFacility (f : Facility) : Option Entry :=
  let text := f.text.data
  let rawText := stripL text
  let name1 := stripL ((splitL lcMark.data rawText).headD [])
  let nameL := if name1 = [] then unknownL else name1
  ((splitL lcSpMark.data text).get? 1).bind fun part1 =>
    let countText := stripL ((splitL updMark.data part1).headD [])
    let countL := if countText = [] then naL else countText
    ((splitL updSpMark.data text).get? 1).bind fun part2 =>
      let updatedText := stripL ((splitL ['\n'] part2).headD [])
      (pctOf f.valueSpan).bind fun pf =>
        (occOf countL).bind fun occ =>
          (updOf updatedText).bind fun upd =>
            some ⟨⟨nameL⟩, occ, pf, upd⟩

/-- The count substring of a fragment: the piece after `"Last Count: "` and
before `"Updated:"`, stripped — exactly as the scraper computes it. -/
def countTextOf (f : Facility) : Option (List Char) :=
  ((splitL lcSpMark.data f.text.data).get? 1).map
    (fun p => stripL ((splitL updMark.data p).headD []))

/-- Failure modes of `Gym.objects.get(name=...)`. -/
inductive LookupErr where
  | doesNotExist
  | multiple
deriving DecidableEq, Repr

/-- Model of `Gym.objects.get(name=name)`: exactly one row must match. -/
def lookupGym (reg : List Gym) (name : String) : Except LookupErr Gym :=
  match reg.filter (fun g => g.name = name) with
  | [g] => Except.ok g
  | [] => Except.error LookupErr.doesNotExist
  | _ => Except.error LookupErr.multiple

/-- Outcome of one iteration of the scraper's extraction loop. -/
inductive FacResult where
  | ok (r : Resolved)
  | unmatched
  | failed
deriving DecidableEq, Repr

/-- One iteration of the extraction loop: extract the fields, then look the
name up; `Gym.DoesNotExist` skips the entry (`unmatched`), any other
exception is caught by the generic handler (`failed`). -/
def processFacility (reg : List Gym) (f : Facility) : FacResult :=
  match extractFacility f with
  | none => FacResult.failed
  | some e =>
    match lookupGym reg e.name with
    | Except.ok g => FacResult.ok ⟨g.gym_id, e.occupancy_count, e.percentage_full, e.updated_at⟩
    | Except.error LookupErr.doesNotExist => FacResult.unmatched
    | Except.error LookupErr.multiple => FacResult.failed

/-- The lookup step of the pipeline on an already-extracted entry: `some`
exactly when the entry reaches `data_list`. -/
def resolveEntry (reg : List Gym) (e : Entry) : Option Resolved :=
  match lookupGym reg e.name with
  | Except.ok g => some ⟨g.gym_id, e.occupancy_count, e.percentage_full, e.updated_at⟩
  | Except.error _ => none

/-- The `Resolved` value a facility contributes to `data_list`, if any. -/
def resolveFacility (reg : List Gym) (f : Facility) : Option Resolved :=
  match processFacility reg f with
  | FacResult.ok r => some r
  | _ => none

/-- One chronological event of a scrape run, as witnessed by the scraper's
per-iteration log lines: a facility finishing its extraction/lookup
iteration, or an upsert being attempted for a `data_list` entry. -/
inductive ScrapeEv where
  | extractStep (f : Facility)
  | upsertStep (r : Resolved)
deriving DecidableEq, Repr

/-- Whether an event is an extraction/lookup iteration. -/
def ScrapeEv.isExtract : ScrapeEv → Bool
  | ScrapeEv.extractStep _ => true
  | _ => false

/-- Whether an event is an upsert attempt. -/
def ScrapeEv.isUpsert : ScrapeEv → Bool
  | ScrapeEv.upsertStep _ => true
  | _ => false

/-- Accumulated state of the extraction loop: `data_list`, the counts
readable off the log lines, and the event trace. -/
structure Phase1Out where
  entries : List Resolved
  matched : Nat
  unmatched : Nat
  failures : Nat
  trace : List ScrapeEv
deriving DecidableEq, Repr

/-- One iteration of the extraction loop, threading the accumulated state. -/
def phase1Step (reg : List Gym) (acc : Phase1Out) (f : Facility) : Phase1Out :=
  match processFacility reg f with
  | FacResult.ok r =>
    ⟨acc.entries ++ [r], acc.matched + 1, acc.unmatched, acc.failures,
      acc.trace ++ [ScrapeEv.extractStep f]⟩
  | FacResult.unmatched =>
    ⟨acc.entries, acc.matched, acc.unmatched + 1, acc.failures,
      acc.trace ++ [ScrapeEv.extractStep f]⟩
  | FacResult.failed =>
    ⟨acc.entries, acc.matched, acc.unmatched, acc.failures + 1,
      acc.trace ++ [ScrapeEv.extractStep f]⟩

/-- The scraper's first loop (`for facility in facilities`), which builds
`data_list` and performs no store writes. -/
def phase1 (reg : List Gym) (facilities : List Facility) : Phase1Out :=
  facilities.foldl (phase1Step reg) ⟨[], 0, 0, 0, []⟩

/-- All rows of the store for one gym key. -/
def getRecords (S : Store) (g : Nat) : List CrowdRecord :=
  S.filter (fun r => r.gym == g)

/-- Model of `CrowdData.objects.update_or_create(gym=..., defaults=...)`
against the list-of-rows store.  `none` models a raised exception with the
store unchanged: `MultipleObjectsReturned` when more than one row matches, or
the database's rejection of a `NULL` `last_updated` (the column is
non-nullable in `models.py`).  Otherwise the matching row is overwritten in
place, or a fresh row is appended. -/
def update_or_create (S : Store) (r : Resolved) : Option Store :=
  let hits := getRecords S r.gym
  if 2 ≤ hits.length then none
  else
    match r.last_updated with
    | none => none
    | some d =>
      if hits.length = 1 then
        some (S.map (fun c =>
          if c.gym == r.gym then ⟨r.gym, r.occupancy, r.percentage_full, d⟩ else c))
      else some (S ++ [⟨r.gym, r.occupancy, r.percentage_full, d⟩])

/-- Accumulated state of the upsert loop. -/
structure Phase2Out where
  store : Store
  updated : Nat
  update_errors : Nat
  trace : List ScrapeEv
deriving DecidableEq, Repr

/-- One iteration of the upsert loop: apply the upsert, catching any
exception (`except Exception`) so the loop continues. -/
def phase2Step (acc : Phase2Out) (r : Resolved) : Phase2Out :=
  match update_or_create acc.store r with
  | some S => ⟨S, acc.updated + 1, acc.update_errors, acc.trace ++ [ScrapeEv.upsertStep r]⟩
  | none => ⟨acc.store, acc.updated, acc.update_errors + 1, acc.trace ++ [ScrapeEv.upsertStep r]⟩

/-- The scraper's second loop (`for data in data_list`). -/
def phase2 (S : Store) (entries : List Resolved) : Phase2Out :=
  entries.foldl phase2Step ⟨S, 0, 0, []⟩

/-- The store evolution of the upsert loop alone. -/
def applyStore (S : Store) (entries : List Resolved) : Store :=
  entries.foldl (fun S r => (update_or_create S r).getD S) S

/-- The reconcile step on already-extracted entries: the code's lookup
(`Gym.objects.get`, skipping entries that raise) composed with the code's
upsert loop. -/
def reconcileEntries (reg : List Gym) (S : Store) (entries : List Entry) : Store :=
  applyStore S (entries.filterMap (resolveEntry reg))

/-- The fetch step's observable result: the HTTP status code and the
`div.barChart` fragments BeautifulSoup finds in the body. -/
structure FetchResponse where
  status : Nat
  facilities : List Facility
deriving DecidableEq, Repr

/-- The Python value `scrape_gym_data` returns: either `None` (the actual
code), or a report carrying the four counts (what the spec's contract would
demand). -/
inductive PyReturn where
  | pyNone
  | pyReport (matched unmatched updated update_errors : Nat)
deriving DecidableEq, Repr

/-- Whether the returned value is a run report. -/
def PyReturn.hasReport : PyReturn → Bool
  | PyReturn.pyReport .. => true
  | PyReturn.pyNone => false

/-- The observable outcome of a non-fatal scrape run: the final store, the
counts readable off the log output, the chronological event trace, and the
function's Python return value. -/
structure ScrapeOutcome where
  store : Store
  matched : Nat
  unmatched : Nat
  failures : Nat
  updated : Nat
  update_errors : Nat
  trace : List ScrapeEv
  retval : PyReturn
deriving DecidableEq, Repr

/-- The whole of `scrape_gym_data`: raise `Exception("Failed to fetch gym
data")` unless the status is exactly 200, then run the extraction loop over
the fragments and the upsert loop over `data_list`.  The function body has no
`return` statement, so the returned Python value is `None`. -/
def scrape_gym_data (reg : List Gym) (resp : FetchResponse) (S : Store) :
    Except String ScrapeOutcome :=
  if resp.status ≠ 200 then Except.error "Failed to fetch gym data"
  else
    let p1 := phase1 reg resp.facilities
    let p2 := phase2 S p1.entries
    Except.ok ⟨p2.store, p1.matched, p1.unmatched, p1.failures, p2.updated,
      p2.update_errors, p1.trace ++ p2.trace, PyReturn.pyNone⟩

/-- The Python return value of a run, when the run is non-fatal. -/
def scrapeRetval (x : Except String ScrapeOutcome) : Option PyReturn :=
  x.toOption.map ScrapeOutcome.retval

/-- At most one `CrowdData` row per gym identity. -/
def AtMostOne (S : Store) : Prop :=
  ∀ g : Nat, (getRecords S g).length ≤ 1

/-- Decidable equality for `Except` results, so that concrete runs can be
checked by `decide`. -/
instance {ε α : Type} [DecidableEq ε] [DecidableEq α] : DecidableEq (Except ε α) := fun x y =>
  match x, y with
  | Except.error a, Except.error b =>
    if h : a = b then Decidable.isTrue (by rw [h])
    else Decidable.isFalse (fun hc => h (by injection hc))
  | Except.ok a, Except.ok b =>
    if h : a = b then Decidable.isTrue (by rw [h])
    else Decidable.isFalse (fun hc => h (by injection hc))
  | Except.error _, Except.ok _ => Decidable.isFalse (fun hc => by injection hc)
  | Except.ok _, Except.error _ => Decidable.isFalse (fun hc => by injection hc)

/-- Running the extraction loop from an arbitrary accumulated state shifts
the empty-state result by that state. -/
theorem phase1_shift (reg : List Gym) (fs : List Facility) (a : Phase1Out) :
    fs.foldl (phase1Step reg) a =
      ⟨a.entries ++ (phase1 reg fs).entries,
       a.matched + (phase1 reg fs).matched,
       a.unmatched + (phase1 reg fs).unmatched,
       a.failures + (phase1 reg fs).failures,
       a.trace ++ (phase1 reg fs).trace⟩ := by
  induction fs generalizing a with
  | nil => simp [phase1]
  | cons f fs ih =>
    show fs.foldl (phase1Step reg) (phase1Step reg a f) = _
    rw [ih (phase1Step reg a f)]
    have hinit : phase1 reg (f :: fs) = fs.foldl (phase1Step reg) (phase1Step reg ⟨[], 0, 0, 0, []⟩ f) := rfl
    rw [hinit, ih (phase1Step reg ⟨[], 0, 0, 0, []⟩ f)]
    cases hp : processFacility reg f <;>
      simp [phase1Step, hp, List.append_assoc] <;> omega

/-- The extraction loop distributes over list append. -/
theorem phase1_append (reg : List Gym) (xs ys : List Facility) :
    phase1 reg (xs ++ ys) =
      ⟨(phase1 reg xs).entries ++ (phase1 reg ys).entries,
       (phase1 reg xs).matched + (phase1 reg ys).matched,
       (phase1 reg xs).unmatched + (phase1 reg ys).unmatched,
       (phase1 reg xs).failures + (phase1 reg ys).failures,
       (phase1 reg xs).trace ++ (phase1 reg ys).trace⟩ := by
  show (xs ++ ys).foldl (phase1Step reg) ⟨[], 0, 0, 0, []⟩ = _
  rw [List.foldl_append]
  exact phase1_shift reg ys (phase1 reg xs)

/-- `data_list` is exactly the in-order list of resolvable fragments. -/
theorem phase1_entries_eq (reg : List Gym) (fs : List Facility) :
    (phase1 reg fs).entries = fs.filterMap (resolveFacility reg) := by
  induction fs with
  | nil => rfl
  | cons f fs ih =>
    have h1 : phase1 reg (f :: fs) = fs.foldl (phase1Step reg) (phase1Step reg ⟨[], 0, 0, 0, []⟩ f) := rfl
    rw [h1, phase1_shift reg fs (phase1Step reg ⟨[], 0, 0, 0, []⟩ f)]
    cases hp : processFacility reg f <;>
      simp [phase1Step, hp, resolveFacility, ih]

/-- The extraction loop logs one extraction event per fragment, in document
order, and nothing else. -/
theorem phase1_trace_eq (reg : List Gym) (fs : List Facility) :
    (phase1 reg fs).trace = fs.map ScrapeEv.extractStep := by
  induction fs with
  | nil => rfl
  | cons f fs ih =>
    have h1 : phase1 reg (f :: fs) = fs.foldl (phase1Step reg) (phase1Step reg ⟨[], 0, 0, 0, []⟩ f) := rfl
    rw [h1, phase1_shift reg fs (phase1Step reg ⟨[], 0, 0, 0, []⟩ f)]
    cases hp : processFacility reg f <;>
      simp [phase1Step, hp, ih]

/-- Running the upsert loop from an arbitrary accumulated state shifts the
counts and the trace by that state. -/
theorem phase2_shift (fs : List Resolved) (a : Phase2Out) :
    fs.foldl phase2Step a =
      ⟨(phase2 a.store fs).store,
       a.updated + (phase2 a.store fs).updated,
       a.update_errors + (phase2 a.store fs).update_errors,
       a.trace ++ (phase2 a.store fs).trace⟩ := by
  induction fs generalizing a with
  | nil => simp [phase2]
  | cons r fs ih =>
    show fs.foldl phase2Step (phase2Step a r) = _
    rw [ih (phase2Step a r)]
    have hinit : phase2 a.store (r :: fs) = fs.foldl phase2Step (phase2Step ⟨a.store, 0, 0, []⟩ r) := rfl
    rw [hinit, ih (phase2Step ⟨a.store, 0, 0, []⟩ r)]
    cases hu : update_or_create a.store r <;>
      simp [phase2Step, hu, List.append_assoc] <;> omega

/-- The store produced by the upsert loop is `applyStore`. -/
theorem phase2_store_eq (S : Store) (fs : List Resolved) :
    (phase2 S fs).store = applyStore S fs := by
  induction fs generalizing S with
  | nil => rfl
  | cons r fs ih =>
    have h1 : phase2 S (r :: fs) = fs.foldl phase2Step (phase2Step ⟨S, 0, 0, []⟩ r) := rfl
    rw [h1, phase2_shift fs (phase2Step ⟨S, 0, 0, []⟩ r)]
    cases hu : update_or_create S r <;>
      simp [phase2Step, hu, applyStore, List.foldl_cons, ih]

/-- The upsert loop logs one upsert event per `data_list` entry, in order. -/
theorem phase2_trace_eq (S : Store) (fs : List Resolved) :
    (phase2 S fs).trace = fs.map ScrapeEv.upsertStep := by
  induction fs generalizing S with
  | nil => rfl
  | cons r fs ih =>
    have h1 : phase2 S (r :: fs) = fs.foldl phase2Step (phase2Step ⟨S, 0, 0, []⟩ r) := rfl
    rw [h1, phase2_shift fs (phase2Step ⟨S, 0, 0, []⟩ r)]
    cases hu : update_or_create S r <;>
      simp [phase2Step, hu, ih]

/-- Replacing every row of a gym by a fresh row for that gym rewrites exactly
that gym's rows. -/
theorem getRecords_map_replace (S : Store) (g : Nat) (new : CrowdRecord) (hg : new.gym = g) :
    getRecords (S.map (fun c => if c.gym == g then new else c)) g =
      List.replicate (getRecords S g).length new := by
  unfold getRecords
  rw [List.filter_map]
  have hpred : ((fun r : CrowdRecord => r.gym == g) ∘ (fun c => if c.gym == g then new else c)) =
      fun c : CrowdRecord => c.gym == g := by
    funext c
    by_cases h : c.gym = g <;> simp [h, hg]
  rw [hpred]
  have hconst : ∀ x ∈ S.filter (fun c : CrowdRecord => c.gym == g),
      (fun c => if c.gym == g then new else c) x = (fun _ => new) x := by
    intro x hx
    have := List.of_mem_filter hx
    simp only [beq_iff_eq] at this
    simp [this]
  rw [List.map_congr_left hconst, List.map_const']

/-- The same replacement leaves every other gym's rows unchanged. -/
theorem getRecords_map_replace_ne (S : Store) (g g' : Nat) (new : CrowdRecord)
    (hg : new.gym = g) (hne : g' ≠ g) :
    getRecords (S.map (fun c => if c.gym == g then new else c)) g' = getRecords S g' := by
  unfold getRecords
  rw [List.filter_map]
  have hn : ¬ (new.gym = g') := by rw [hg]; exact fun hc => hne hc.symm
  have hpred : ((fun r : CrowdRecord => r.gym == g') ∘ (fun c => if c.gym == g then new else c)) =
      fun c : CrowdRecord => c.gym == g' := by
    funext c
    by_cases h : c.gym = g
    · have hc : ¬ (c.gym = g') := by rw [h]; exact fun hcc => hne hcc.symm
      simp [h, hn, hc]
      exact fun hcc => hne hcc.symm
    · simp [h]
  rw [hpred]
  have hid : ∀ x ∈ S.filter (fun c : CrowdRecord => c.gym == g'),
      (fun c => if c.gym == g then new else c) x = id x := by
    intro x hx
    have := List.of_mem_filter hx
    simp only [beq_iff_eq] at this
    have hx2 : ¬ (x.gym = g) := by rw [this]; exact hne
    simp [hx2]
  rw [List.map_congr_left hid, List.map_id]

/-- Appending a row only extends that row's gym's records. -/
theorem getRecords_append_one (S : Store) (g : Nat) (new : CrowdRecord) :
    getRecords (S ++ [new]) g =
      getRecords S g ++ (if new.gym == g then [new] else []) := by
  simp only [getRecords, List.filter_append]
  congr 1
  by_cases h : new.gym = g <;> simp [h]

/-- A successful upsert on a store with at most one row for the entry's gym
leaves exactly the fresh row for that gym and every other gym's rows
unchanged. -/
theorem update_or_create_hit (S : Store) (r : Resolved) (d : DT)
    (hS : (getRecords S r.gym).length ≤ 1) (hd : r.last_updated = some d) :
    ∃ S', update_or_create S r = some S' ∧
      getRecords S' r.gym = [⟨r.gym, r.occupancy, r.percentage_full, d⟩] ∧
      ∀ g', g' ≠ r.gym → getRecords S' g' = getRecords S g' := by
  simp only [update_or_create, hd]
  have hc2 : ¬ (2 ≤ (getRecords S r.gym).length) := by omega
  rw [if_neg hc2]
  by_cases h1 : (getRecords S r.gym).length = 1
  · rw [if_pos h1]
    refine ⟨_, rfl, ?_, ?_⟩
    · rw [getRecords_map_replace S r.gym _ rfl, h1]
      rfl
    · intro g' hg'
      exact getRecords_map_replace_ne S r.gym g' _ rfl hg'
  · rw [if_neg h1]
    have h0 : getRecords S r.gym = [] := by
      rcases hrec : getRecords S r.gym with _ | ⟨x, l⟩
      · rfl
      · rw [hrec] at hS h1
        rw [List.length_cons] at hS h1
        omega
    refine ⟨_, rfl, ?_, ?_⟩
    · rw [getRecords_append_one, h0]
      simp
    · intro g' hg'
      rw [getRecords_append_one]
      have hn : ¬ ((⟨r.gym, r.occupancy, r.percentage_full, d⟩ : CrowdRecord).gym == g') = true := by
        simp
        exact fun hc => hg' hc.symm
      rw [if_neg hn]
      simp

/-- An upsert whose `last_updated` is `None` raises (the column is
non-nullable) and is caught, with the store unchanged. -/
theorem update_or_create_null (S : Store) (r : Resolved) (hd : r.last_updated = none) :
    update_or_create S r = none := by
  simp only [update_or_create, hd]
  split <;> rfl

/-- A successful upsert never touches another gym's records. -/
theorem update_or_create_frame (S S' : Store) (r : Resolved) (g : Nat)
    (h : update_or_create S r = some S') (hg : g ≠ r.gym) :
    getRecords S' g = getRecords S g := by
  rcases hd : r.last_updated with _ | d
  · rw [update_or_create_null S r hd] at h
    cases h
  · simp only [update_or_create, hd] at h
    split at h
    · cases h
    · split at h
      · cases h
        exact getRecords_map_replace_ne S r.gym g _ rfl hg
      · cases h
        rw [getRecords_append_one]
        have hn : ¬ ((⟨r.gym, r.occupancy, r.percentage_full, d⟩ : CrowdRecord).gym == g) = true := by
          simp
          exact fun hc => hg hc.symm
        rw [if_neg hn]
        simp

/-- An upsert preserves the at-most-one-row-per-gym invariant. -/
theorem update_or_create_amo (S : Store) (r : Resolved) (hS : AtMostOne S) :
    AtMostOne ((update_or_create S r).getD S) := by
  rcases hu : update_or_create S r with _ | S'
  · simpa using hS
  · rcases hd : r.last_updated with _ | d
    · rw [update_or_create_null S r hd] at hu
      cases hu
    · obtain ⟨S'', hu2, hrec, hfr⟩ := update_or_create_hit S r d (hS r.gym) hd
      rw [hu] at hu2
      cases hu2
      intro g
      by_cases hg : g = r.gym
      · rw [Option.getD_some, hg, hrec]
        simp
      · rw [Option.getD_some, hfr g hg]
        exact hS g

/-- The upsert loop preserves the at-most-one-row-per-gym invariant. -/
theorem applyStore_amo (L : List Resolved) (S : Store) (hS : AtMostOne S) :
    AtMostOne (applyStore S L) := by
  induction L generalizing S with
  | nil => exact hS
  | cons r L ih =>
    have h1 : applyStore S (r :: L) = applyStore ((update_or_create S r).getD S) L := rfl
    rw [h1]
    exact ih _ (update_or_create_amo S r hS)

/-- Entries for other gyms never change a gym's records. -/
theorem applyStore_frame (L : List Resolved) (S : Store) (g : Nat)
    (h : ∀ r ∈ L, r.gym ≠ g) :
    getRecords (applyStore S L) g = getRecords S g := by
  induction L generalizing S with
  | nil => rfl
  | cons r L ih =>
    have h1 : applyStore S (r :: L) = applyStore ((update_or_create S r).getD S) L := rfl
    rw [h1]
    have hr : r.gym ≠ g := h r (List.mem_cons_self r L)
    have hrest : ∀ x ∈ L, x.gym ≠ g := fun x hx => h x (List.mem_cons_of_mem r hx)
    rw [ih _ hrest]
    rcases hu : update_or_create S r with _ | S'
    · rw [Option.getD_none]
    · rw [Option.getD_some]
      exact update_or_create_frame S S' r g hu (fun hc => hr hc.symm)

/-- Dropping the head of a list with a non-empty tail keeps its last
element. -/
theorem getLast?_cons_of_ne_nil {α : Type} (a : α) (l : List α) (h : l ≠ []) :
    (a :: l).getLast? = l.getLast? := by
  cases l with
  | nil => exact absurd rfl h
  | cons b l => rfl

/-- Last write wins: after the upsert loop, a gym whose last entry carries a
present `last_updated` holds exactly that entry's values, whatever succeeded
or failed before it. -/
theorem applyStore_last_wins (L : List Resolved) (S : Store) (g : Nat) (r : Resolved) (d : DT)
    (hS : AtMostOne S)
    (hlast : (L.filter (fun x => x.gym == g)).getLast? = some r)
    (hd : r.last_updated = some d) :
    getRecords (applyStore S L) g = [⟨g, r.occupancy, r.percentage_full, d⟩] := by
  induction L generalizing S with
  | nil => cases hlast
  | cons x L ih =>
    have h1 : applyStore S (x :: L) = applyStore ((update_or_create S x).getD S) L := rfl
    have hS' : AtMostOne ((update_or_create S x).getD S) := update_or_create_amo S x hS
    by_cases hx : x.gym = g
    · rw [List.filter_cons_of_pos (by simp [hx])] at hlast
      rcases htail : L.filter (fun y => y.gym == g) with _ | ⟨z, zs⟩
      · rw [htail] at hlast
        have hrx : x = r := by simpa using hlast
        subst hrx
        have hnone : ∀ y ∈ L, y.gym ≠ g := by
          intro y hy hc
          have hmem : y ∈ L.filter (fun y => y.gym == g) :=
            List.mem_filter.mpr ⟨hy, by simp [hc]⟩
          rw [htail] at hmem
          cases hmem
        rw [h1, applyStore_frame L _ g hnone]
        obtain ⟨S', hu, hrec, _⟩ := update_or_create_hit S x d (hS x.gym) hd
        rw [hu, Option.getD_some, ← hx]
        exact hrec
      · rw [h1]
        apply ih _ hS'
        rw [htail] at hlast ⊢
        rwa [getLast?_cons_of_ne_nil x (z :: zs) (by simp)] at hlast
    · rw [List.filter_cons_of_neg (by simp [hx])] at hlast
      rw [h1]
      exact ih _ hS' hlast

/-- Decimal digits are not Python whitespace. -/
theorem isDigit_not_pySpace (c : Char) (h : c.isDigit = true) : pyIsSpace c = false := by
  simp only [pyIsSpace, Bool.or_eq_false_iff, decide_eq_false_iff_not]
  refine ⟨⟨⟨⟨⟨?_, ?_⟩, ?_⟩, ?_⟩, ?_⟩, ?_⟩ <;>
    rintro rfl <;> simp [Char.isDigit] at h

/-- Dropping leading whitespace does nothing to an all-digit string. -/
theorem dropWhile_pySpace_digits (cs : List Char) (h : cs.all Char.isDigit = true) :
    cs.dropWhile pyIsSpace = cs := by
  cases cs with
  | nil => rfl
  | cons c cs =>
    rw [List.all_cons, Bool.and_eq_true] at h
    rw [List.dropWhile_cons, isDigit_not_pySpace c h.1]
    simp

/-- Stripping whitespace does nothing to an all-digit string. -/
theorem stripL_digits (cs : List Char) (h : cs.all Char.isDigit = true) :
    stripL cs = cs := by
  unfold stripL
  rw [dropWhile_pySpace_digits cs h]
  rw [dropWhile_pySpace_digits cs.reverse (by rwa [List.all_reverse])]
  exact List.reverse_reverse cs

/-- `int(...)` on a non-empty decimal numeral yields its value. -/
theorem pyIntL_digits (cs : List Char) (hne : cs ≠ []) (h : cs.all Char.isDigit = true) :
    pyIntL cs = some ((decValue cs : Int)) := by
  unfold pyIntL
  rw [stripL_digits cs h]
  cases cs with
  | nil => exact absurd rfl hne
  | cons c rest =>
    have hc : c.isDigit = true := by
      rw [List.all_cons, Bool.and_eq_true] at h
      exact h.1
    have h1 : ¬ (c = '-') := by rintro rfl; simp [Char.isDigit] at hc
    have h2 : ¬ (c = '+') := by rintro rfl; simp [Char.isDigit] at hc
    simp [h1, h2, h]

/-- Every digit character parses as a digit. -/
theorem digitChar_isDigit (k : Nat) : (digitChar k).isDigit = true := by
  rcases k with _|_|_|_|_|_|_|_|_|k
  case succ.succ.succ.succ.succ.succ.succ.succ.succ =>
    show ('9').isDigit = true
    decide
  all_goals decide

/-- The digit character of a value below ten carries that value. -/
theorem digitChar_val (k : Nat) (hk : k ≤ 9) : (digitChar k).toNat - 48 = k := by
  rcases k with _|_|_|_|_|_|_|_|_|_|k
  all_goals first | decide | omega

/-- A digit run stops at a non-digit. -/
theorem parseDigitsAux_stop (acc n : Nat) (c : Char) (r : List Char) (h : c.isDigit = false) :
    parseDigitsAux acc n (c :: r) = (acc, n, c :: r) := by
  simp [parseDigitsAux, h]

/-- A digit run consumes a digit. -/
theorem parseDigitsAux_step (acc n : Nat) (c : Char) (r : List Char) (h : c.isDigit = true) :
    parseDigitsAux acc n (c :: r) = parseDigitsAux (10 * acc + (c.toNat - 48)) (n + 1) r := by
  simp [parseDigitsAux, h]

/-- Reading digits off a two-digit zero-padded rendering. -/
theorem parseDigits_pad2 (n : Nat) (c : Char) (r : List Char) (hn : n ≤ 99)
    (hc : c.isDigit = false) :
    parseDigits (pad2 n ++ c :: r) = (n, 2, c :: r) := by
  unfold parseDigits pad2
  rw [List.cons_append, List.cons_append, List.nil_append]
  rw [parseDigitsAux_step _ _ _ _ (digitChar_isDigit _), digitChar_val _ (by omega)]
  rw [parseDigitsAux_step _ _ _ _ (digitChar_isDigit _), digitChar_val _ (by omega)]
  rw [parseDigitsAux_stop _ _ _ _ hc]
  have he : 10 * (10 * 0 + n / 10) + n % 10 = n := by omega
  rw [he]

/-- Reading digits off a four-digit zero-padded rendering. -/
theorem parseDigits_pad4 (n : Nat) (c : Char) (r : List Char) (hn : n ≤ 9999)
    (hc : c.isDigit = false) :
    parseDigits (pad4 n ++ c :: r) = (n, 4, c :: r) := by
  unfold parseDigits pad4
  rw [List.cons_append, List.cons_append, List.cons_append, List.cons_append, List.nil_append]
  rw [parseDigitsAux_step _ _ _ _ (digitChar_isDigit _), digitChar_val _ (by omega)]
  rw [parseDigitsAux_step _ _ _ _ (digitChar_isDigit _), digitChar_val _ (by omega)]
  rw [parseDigitsAux_step _ _ _ _ (digitChar_isDigit _), digitChar_val _ (by omega)]
  rw [parseDigitsAux_step _ _ _ _ (digitChar_isDigit _), digitChar_val _ (by omega)]
  rw [parseDigitsAux_stop _ _ _ _ hc]
  have he : 10 * (10 * (10 * (10 * 0 + n / 1000) + n / 100 % 10) + n / 10 % 10) + n % 10 = n := by
    omega
  rw [he]

/-- A two-digit field parses off its zero-padded rendering. -/
theorem parseNum2_pad2 (lo hi n : Nat) (c : Char) (r : List Char)
    (h1 : lo ≤ n) (h2 : n ≤ hi) (h99 : n ≤ 99) (hc : c.isDigit = false) :
    parseNum2 lo hi (pad2 n ++ c :: r) = some (n, c :: r) := by
  simp only [parseNum2, parseDigits_pad2 n c r h99 hc]
  rw [if_pos ⟨by omega, by omega, h1, h2⟩]

/-- The year field parses off its zero-padded rendering. -/
theorem parseNum4_pad4 (n : Nat) (c : Char) (r : List Char) (hn : n ≤ 9999)
    (hc : c.isDigit = false) :
    parseNum4 (pad4 n ++ c :: r) = some (n, c :: r) := by
  simp only [parseNum4, parseDigits_pad4 n c r hn hc]
  simp

/-- Requiring a literal succeeds on that literal. -/
theorem expectChar_cons (c : Char) (r : List Char) : expectChar c (c :: r) = some r := by
  simp [expectChar]

/-- No month has more than 31 days. -/
theorem daysInMonth_le31 (m y : Nat) : daysInMonth m y ≤ 31 := by
  unfold daysInMonth
  split
  · split <;> omega
  · split <;> omega

/-- Parser correctness on canonical renderings: `strptime` maps the
`MM/DD/YYYY hh:mm AM|PM` rendering of any valid timestamp back to exactly
that timestamp. -/
theorem strptime_format_roundtrip (dt : DT) (hv : validDT dt = true) :
    strptimeMDYHM (formatDT dt) = some dt := by
  obtain ⟨y, m, d, h, mi⟩ := dt
  simp only [validDT, Bool.and_eq_true, decide_eq_true_eq] at hv
  obtain ⟨⟨⟨⟨⟨⟨⟨hy1, hy2⟩, hm1⟩, hm2⟩, hd1⟩, hd2⟩, hh⟩, hmi⟩ := hv
  have hvd : validDT ⟨y, m, d, h, mi⟩ = true := by
    simp only [validDT, Bool.and_eq_true, decide_eq_true_eq]
    exact ⟨⟨⟨⟨⟨⟨⟨hy1, hy2⟩, hm1⟩, hm2⟩, hd1⟩, hd2⟩, hh⟩, hmi⟩
  have hb1 : 1 ≤ (if h % 12 = 0 then 12 else h % 12) := by split <;> omega
  have hb2 : (if h % 12 = 0 then 12 else h % 12) ≤ 12 := by split <;> omega
  simp only [formatDT, strptimeMDYHM, List.cons_append, List.append_assoc]
  rw [parseNum2_pad2 1 12 m '/' _ hm1 hm2 (by omega) (by decide)]
  rw [Option.some_bind]
  rw [expectChar_cons, Option.some_bind]
  have hd31 : d ≤ 31 := le_trans hd2 (daysInMonth_le31 m y)
  rw [parseNum2_pad2 1 31 d '/' _ hd1 hd31 (by omega) (by decide)]
  rw [Option.some_bind]
  rw [expectChar_cons, Option.some_bind]
  rw [parseNum4_pad4 y ' ' _ hy2 (by decide)]
  rw [Option.some_bind]
  rw [expectChar_cons, Option.some_bind]
  rw [parseNum2_pad2 1 12 _ ':' _ hb1 hb2 (by omega) (by decide)]
  rw [Option.some_bind]
  rw [expectChar_cons, Option.some_bind]
  rw [parseNum2_pad2 0 59 mi ' ' _ (by omega) hmi (by omega) (by decide)]
  rw [Option.some_bind]
  rw [expectChar_cons, Option.some_bind]
  by_cases hlt : h < 12
  · rw [if_pos hlt]
    have hap : parseAmPm ['A', 'M'] = some false := by decide
    rw [hap, Option.some_bind]
    have hconv : hourFrom12 (if h % 12 = 0 then 12 else h % 12) false = h := by
      unfold hourFrom12
      by_cases h0 : h % 12 = 0
      · simp [h0]
        omega
      · simp [h0]
        rw [if_neg (by omega)]
        omega
    rw [hconv]
    unfold mkDT
    rw [if_pos hvd]
  · rw [if_neg hlt]
    have hap : parseAmPm ['P', 'M'] = some true := by decide
    rw [hap, Option.some_bind]
    have hconv : hourFrom12 (if h % 12 = 0 then 12 else h % 12) true = h := by
      unfold hourFrom12
      by_cases h0 : h % 12 = 0
      · simp [h0]
        omega
      · simp [h0]
        rw [if_neg (by omega)]
        omega
    rw [hconv]
    unfold mkDT
    rw [if_pos hvd]

/-- The `datetime` constructor only ever builds validated values. -/
theorem mkDT_valid (y m d h24 mi : Nat) (dt : DT) (h : mkDT y m d h24 mi = some dt) :
    validDT dt = true := by
  unfold mkDT at h
  split at h
  · cases h
    assumption
  · cases h

/-- Whatever `strptime` accepts is a constructor-validated timestamp. -/
theorem strptime_valid (cs : List Char) (dt : DT) (h : strptimeMDYHM cs = some dt) :
    validDT dt = true := by
  unfold strptimeMDYHM at h
  obtain ⟨pm, _, h⟩ := Option.bind_eq_some.mp h
  obtain ⟨r2, _, h⟩ := Option.bind_eq_some.mp h
  obtain ⟨pd, _, h⟩ := Option.bind_eq_some.mp h
  obtain ⟨r3, _, h⟩ := Option.bind_eq_some.mp h
  obtain ⟨py, _, h⟩ := Option.bind_eq_some.mp h
  obtain ⟨r4, _, h⟩ := Option.bind_eq_some.mp h
  obtain ⟨ph, _, h⟩ := Option.bind_eq_some.mp h
  obtain ⟨r5, _, h⟩ := Option.bind_eq_some.mp h
  obtain ⟨pmin, _, h⟩ := Option.bind_eq_some.mp h
  obtain ⟨r6, _, h⟩ := Option.bind_eq_some.mp h
  obtain ⟨pm12, _, h⟩ := Option.bind_eq_some.mp h
  exact mkDT_valid _ _ _ _ _ _ h

/-- The name the scraper computes for a fragment. -/
def nameOf (f : Facility) : List Char :=
  let name1 := stripL ((splitL lcMark.data (stripL f.text.data)).headD [])
  if name1 = [] then unknownL else name1

/-- The `count` string the scraper computes for a fragment (after the
empty-to-`"NA"` defaulting). -/
def countOf (part1 : List Char) : List Char :=
  let countText := stripL ((splitL updMark.data part1).headD [])
  if countText = [] then naL else countText

/-- The stripped updated text the scraper computes for a fragment. -/
def updatedTextOf (part2 : List Char) : List Char :=
  stripL ((splitL ['\n'] part2).headD [])

/-- Inversion on a successful fragment extraction: all intermediate splits
and parses succeeded, and the entry is assembled from their results. -/
theorem extractFacility_inv (f : Facility) (e : Entry) (he : extractFacility f = some e) :
    ∃ part1 part2 pf occ upd,
      (splitL lcSpMark.data f.text.data).get? 1 = some part1 ∧
      (splitL updSpMark.data f.text.data).get? 1 = some part2 ∧
      pctOf f.valueSpan = some pf ∧
      occOf (countOf part1) = some occ ∧
      updOf (updatedTextOf part2) = some upd ∧
      e = ⟨⟨nameOf f⟩, occ, pf, upd⟩ := by
  simp only [extractFacility] at he
  rcases h1 : (splitL lcSpMark.data f.text.data).get? 1 with _ | part1
  · rw [h1, Option.none_bind] at he
    exact Option.noConfusion he
  simp only [h1, Option.some_bind] at he
  rcases h2 : (splitL updSpMark.data f.text.data).get? 1 with _ | part2
  · rw [h2, Option.none_bind] at he
    exact Option.noConfusion he
  simp only [h2, Option.some_bind] at he
  rcases h3 : pctOf f.valueSpan with _ | pf
  · rw [h3, Option.none_bind] at he
    exact Option.noConfusion he
  simp only [h3, Option.some_bind] at he
  rcases h4 : occOf (if stripL ((splitL updMark.data part1).headD []) = [] then naL
      else stripL ((splitL updMark.data part1).headD [])) with _ | occ
  · rw [h4, Option.none_bind] at he
    exact Option.noConfusion he
  simp only [h4, Option.some_bind] at he
  rcases h5 : updOf (stripL ((splitL ['\n'] part2).headD [])) with _ | upd
  · rw [h5, Option.none_bind] at he
    exact Option.noConfusion he
  simp only [h5, Option.some_bind] at he
  refine ⟨part1, part2, pf, occ, upd, rfl, rfl, rfl, h4, h5, ?_⟩
  injection he with he2
  rw [← he2]
  rfl

/-- C3 (amended): the run aborts with the fatal fetch error exactly when the
HTTP status differs from 200; on a 200 response the body's fragments are
extracted and reconciled into the store.  (The code tests `!= 200`, not
membership in the 2xx class.) -/
theorem fetch_gate_only_200 (reg : List Gym) (resp : FetchResponse) (S : Store) :
    (resp.status = 200 →
      (scrape_gym_data reg resp S).toOption.map ScrapeOutcome.store =
        some (applyStore S (resp.facilities.filterMap (resolveFacility reg)))) ∧
    (resp.status ≠ 200 →
      scrape_gym_data reg resp S = Except.error "Failed to fetch gym data") := by
  constructor
  · intro h200
    unfold scrape_gym_data
    rw [if_neg (by simp [h200])]
    simp [Except.toOption, phase2_store_eq, phase1_entries_eq]
  · intro hne
    unfold scrape_gym_data
    rw [if_pos hne]

/-- Witness for `fetch_gate_only_200` at concrete inputs. -/
theorem fetch_gate_only_200_witness :
    (scrape_gym_data [] ⟨200, []⟩ []).toOption.map ScrapeOutcome.store = some [] ∧
    scrape_gym_data [] ⟨404, []⟩ [] = Except.error "Failed to fetch gym data" :=
  ⟨(fetch_gate_only_200 [] ⟨200, []⟩ []).1 rfl,
   (fetch_gate_only_200 [] ⟨404, []⟩ []).2 (by decide)⟩

/-- C3 (counterexample to the claim as stated): 201 is a 2xx success status,
yet the run aborts with the fatal fetch error instead of processing the
body. -/
theorem fetch_gate_rejects_201 :
    scrape_gym_data [] ⟨201, []⟩ [] = Except.error "Failed to fetch gym data" ∧
    200 ≤ 201 ∧ 201 < 300 := by decide

/-- C9 (amended): the scrape run takes no parameters beyond its ambient
collaborators (registry, HTTP response, store) and, on every non-fatal run,
returns the Python value `None` — not a run report; the four counts are only
observable in the log output. -/
theorem scrape_returns_none (reg : List Gym) (resp : FetchResponse) (S : Store)
    (h200 : resp.status = 200) :
    scrapeRetval (scrape_gym_data reg resp S) = some PyReturn.pyNone ∧
    PyReturn.hasReport PyReturn.pyNone = false := by
  constructor
  · unfold scrape_gym_data
    rw [if_neg (by simp [h200])]
    rfl
  · rfl

/-- Witness for `scrape_returns_none` at a concrete input. -/
theorem scrape_returns_none_witness :
    scrapeRetval (scrape_gym_data [⟨1, "A"⟩] ⟨200, []⟩ []) = some PyReturn.pyNone ∧
    PyReturn.hasReport PyReturn.pyNone = false :=
  scrape_returns_none [⟨1, "A"⟩] ⟨200, []⟩ [] rfl

/-- C9 (counterexample to the claim as stated): a concrete non-fatal run
returns `None`, which carries no matched/unmatched/updated/errored counts. -/
theorem scrape_run_no_report_value :
    scrapeRetval (scrape_gym_data [] ⟨200, []⟩ []) = some PyReturn.pyNone ∧
    PyReturn.pyNone.hasReport = false := by decide

/-- C2: a fragment whose extraction raises is skipped in place — the
surviving `data_list`, the matched and unmatched outcomes and the final
store are exactly those of the run without that fragment, with one more
logged per-fragment failure; no exception escapes the loop (the loop's
embedding is total). -/
theorem failed_fragment_isolated (reg : List Gym) (l1 l2 : List Facility) (f : Facility)
    (hf : extractFacility f = none) :
    (phase1 reg (l1 ++ f :: l2)).entries = (phase1 reg (l1 ++ l2)).entries ∧
    (phase1 reg (l1 ++ f :: l2)).matched = (phase1 reg (l1 ++ l2)).matched ∧
    (phase1 reg (l1 ++ f :: l2)).unmatched = (phase1 reg (l1 ++ l2)).unmatched ∧
    (phase1 reg (l1 ++ f :: l2)).failures = (phase1 reg (l1 ++ l2)).failures + 1 ∧
    ∀ S : Store, (phase2 S (phase1 reg (l1 ++ f :: l2)).entries).store =
      (phase2 S (phase1 reg (l1 ++ l2)).entries).store := by
  have hp : processFacility reg f = FacResult.failed := by
    unfold processFacility
    rw [hf]
  have hone : phase1 reg [f] = ⟨[], 0, 0, 1, [ScrapeEv.extractStep f]⟩ := by
    simp [phase1, phase1Step, hp]
  have hsplit : l1 ++ f :: l2 = (l1 ++ [f]) ++ l2 := by simp
  rw [hsplit, phase1_append reg (l1 ++ [f]) l2, phase1_append reg l1 [f], hone,
    phase1_append reg l1 l2]
  refine ⟨by simp, by simp, by simp, by simp; omega, ?_⟩
  intro S
  simp

/-- Witness for `failed_fragment_isolated` at concrete inputs. -/
theorem failed_fragment_isolated_witness :
    (phase1 [⟨1, "A"⟩]
        [⟨"A Last Count: 7Updated: 01/02/2024 05:06 PM", none⟩,
         ⟨"B Last Count: abcUpdated: ", none⟩]).entries =
      (phase1 [⟨1, "A"⟩] [⟨"A Last Count: 7Updated: 01/02/2024 05:06 PM", none⟩]).entries ∧
    (phase1 [⟨1, "A"⟩]
        [⟨"A Last Count: 7Updated: 01/02/2024 05:06 PM", none⟩,
         ⟨"B Last Count: abcUpdated: ", none⟩]).failures =
      (phase1 [⟨1, "A"⟩] [⟨"A Last Count: 7Updated: 01/02/2024 05:06 PM", none⟩]).failures + 1 := by
  have h := failed_fragment_isolated [⟨1, "A"⟩]
    [⟨"A Last Count: 7Updated: 01/02/2024 05:06 PM", none⟩] []
    ⟨"B Last Count: abcUpdated: ", none⟩ (by decide)
  exact ⟨h.1, h.2.2.2.1⟩

/-- C8: an extracted entry whose name has no registry match is skipped — one
more unmatched outcome, no store write for it, and the rest of the run
(entries, counts, final store) exactly as if the entry were absent. -/
theorem unmatched_entry_isolated (reg : List Gym) (l1 l2 : List Facility) (f : Facility)
    (e : Entry) (he : extractFacility f = some e)
    (hu : lookupGym reg e.name = Except.error LookupErr.doesNotExist) :
    (phase1 reg (l1 ++ f :: l2)).entries = (phase1 reg (l1 ++ l2)).entries ∧
    (phase1 reg (l1 ++ f :: l2)).matched = (phase1 reg (l1 ++ l2)).matched ∧
    (phase1 reg (l1 ++ f :: l2)).unmatched = (phase1 reg (l1 ++ l2)).unmatched + 1 ∧
    (phase1 reg (l1 ++ f :: l2)).failures = (phase1 reg (l1 ++ l2)).failures ∧
    ∀ S : Store, (phase2 S (phase1 reg (l1 ++ f :: l2)).entries).store =
      (phase2 S (phase1 reg (l1 ++ l2)).entries).store := by
  have hp : processFacility reg f = FacResult.unmatched := by
    unfold processFacility
    rw [he]
    simp only [hu]
  have hone : phase1 reg [f] = ⟨[], 0, 1, 0, [ScrapeEv.extractStep f]⟩ := by
    simp [phase1, phase1Step, hp]
  have hsplit : l1 ++ f :: l2 = (l1 ++ [f]) ++ l2 := by simp
  rw [hsplit, phase1_append reg (l1 ++ [f]) l2, phase1_append reg l1 [f], hone,
    phase1_append reg l1 l2]
  refine ⟨by simp, by simp, by simp; omega, by simp, ?_⟩
  intro S
  simp

/-- Witness for `unmatched_entry_isolated` at concrete inputs. -/
theorem unmatched_entry_isolated_witness :
    (phase1 [⟨1, "A"⟩]
        [⟨"Nope Last Count: 3Updated: 01/02/2024 05:06 PM", none⟩,
         ⟨"A Last Count: 7Updated: 01/02/2024 05:06 PM", none⟩]).entries =
      (phase1 [⟨1, "A"⟩] [⟨"A Last Count: 7Updated: 01/02/2024 05:06 PM", none⟩]).entries ∧
    (phase1 [⟨1, "A"⟩]
        [⟨"Nope Last Count: 3Updated: 01/02/2024 05:06 PM", none⟩,
         ⟨"A Last Count: 7Updated: 01/02/2024 05:06 PM", none⟩]).unmatched =
      (phase1 [⟨1, "A"⟩] [⟨"A Last Count: 7Updated: 01/02/2024 05:06 PM", none⟩]).unmatched + 1 := by
  have h := unmatched_entry_isolated [⟨1, "A"⟩] []
    [⟨"A Last Count: 7Updated: 01/02/2024 05:06 PM", none⟩]
    ⟨"Nope Last Count: 3Updated: 01/02/2024 05:06 PM", none⟩
    ⟨"Nope", 3, none, some ⟨2024, 1, 2, 17, 6⟩⟩ (by decide) (by decide)
  exact ⟨h.1, h.2.2.1⟩

/-- C4: on any successfully extracted fragment, a count substring equal to
the literal `"NA"` yields occupancy 0, and a count substring that is a
decimal numeral yields exactly its (non-negative) value. -/
theorem count_na_and_numeral (f : Facility) (e : Entry) (he : extractFacility f = some e) :
    (countTextOf f = some naL → e.occupancy_count = 0) ∧
    (∀ s : List Char, countTextOf f = some s → s ≠ [] → s.all Char.isDigit = true →
      e.occupancy_count = (decValue s : Int)) := by
  obtain ⟨part1, part2, pf, occ, upd, h1, h2, h3, h4, h5, hE⟩ := extractFacility_inv f e he
  have hct : countTextOf f = some (stripL ((splitL updMark.data part1).headD [])) := by
    unfold countTextOf
    rw [h1]
    rfl
  constructor
  · intro hna
    rw [hct] at hna
    injection hna with hna
    have hcl : countOf part1 = naL := by
      unfold countOf
      rw [hna]
      simp
    rw [hcl] at h4
    unfold occOf at h4
    rw [if_pos rfl] at h4
    injection h4 with h4
    rw [hE]
    exact h4.symm
  · intro s hs hne hdig
    rw [hct] at hs
    injection hs with hs
    have hcl : countOf part1 = s := by
      unfold countOf
      rw [hs]
      simp only [if_neg hne]
    rw [hcl] at h4
    unfold occOf at h4
    have hsna : ¬ (s = naL) := by
      rintro rfl
      exact absurd hdig (by decide)
    rw [if_neg hsna, pyIntL_digits s hne hdig] at h4
    injection h4 with h4
    rw [hE]
    exact h4.symm

/-- Witness for `count_na_and_numeral` at concrete inputs. -/
theorem count_na_and_numeral_witness :
    extractFacility ⟨"A Last Count: NAUpdated: ", none⟩ = some ⟨"A", 0, none, none⟩ ∧
    countTextOf ⟨"A Last Count: NAUpdated: ", none⟩ = some naL ∧
    (⟨"A", 0, none, none⟩ : Entry).occupancy_count = 0 := by
  refine ⟨by decide, by decide, ?_⟩
  exact (count_na_and_numeral ⟨"A Last Count: NAUpdated: ", none⟩ ⟨"A", 0, none, none⟩ (by decide)).1 (by decide)

/-- Modelled from the spec's words for claim C5 (refinement comparison
only): percentage is the float value of the element text with one trailing
`%` character stripped. -/
def dropTrailingPct (cs : List Char) : List Char :=
  if cs.getLast? = some '%' then cs.dropLast else cs

/-- Modelled from the spec's words for claim C5 (refinement comparison
only): the percentage rule as the claim states it. -/
def pctSpecTrailing : Option String → Option (Option PyF)
  | none => some none
  | some t =>
    if t = "NA" then some none
    else (pyFloatL (dropTrailingPct t.data)).map some

/-- C5 (counterexample to the claim as stated): the code removes every `%`
character before parsing, so `"5%0%"` parses as 50.0, where the claim's
strip-one-trailing-`%` rule prescribes a per-fragment parse failure. -/
theorem percentage_strips_all_percent_signs :
    pctOf (some "5%0%") = some (some ⟨50, 0⟩) ∧
    pctSpecTrailing (some "5%0%") = none := by decide

/-- C5 (amended): on any successfully extracted fragment, an absent
percentage element or the literal text `"NA"` gives `percentage_full =
None`; any other text has every `%` character removed and whitespace
stripped and is parsed as a float, a failure being a per-fragment parse
failure. -/
theorem percentage_rules_amended (f : Facility) (e : Entry) (he : extractFacility f = some e) :
    (f.valueSpan = none → e.percentage_full = none) ∧
    (f.valueSpan = some "NA" → e.percentage_full = none) ∧
    (∀ (t : String) (p : PyF), f.valueSpan = some t → t ≠ "NA" →
      pyFloatL (stripL (t.data.filter (fun c => c ≠ '%'))) = some p →
      e.percentage_full = some p) ∧
    (∀ t : String, t ≠ "NA" →
      pyFloatL (stripL (t.data.filter (fun c => c ≠ '%'))) = none →
      pctOf (some t) = none) := by
  obtain ⟨part1, part2, pf, occ, upd, h1, h2, h3, h4, h5, hE⟩ := extractFacility_inv f e he
  refine ⟨?_, ?_, ?_, ?_⟩
  · intro hv
    rw [hv] at h3
    unfold pctOf at h3
    injection h3 with h3
    rw [hE]
    exact h3.symm
  · intro hv
    rw [hv] at h3
    simp only [pctOf] at h3
    rw [if_pos trivial] at h3
    injection h3 with h3
    rw [hE]
    exact h3.symm
  · intro t p hv ht hp
    rw [hv] at h3
    simp only [pctOf] at h3
    rw [if_neg ht, hp] at h3
    injection h3 with h3
    rw [hE]
    exact h3.symm
  · intro t ht hnone
    simp only [pctOf]
    rw [if_neg ht, hnone]
    rfl

/-- Witness for `percentage_rules_amended` at concrete inputs. -/
theorem percentage_rules_amended_witness :
    extractFacility ⟨"A Last Count: 1Updated: 01/02/2024 05:06 PM", some "64%"⟩ =
      some ⟨"A", 1, some ⟨64, 0⟩, some ⟨2024, 1, 2, 17, 6⟩⟩ ∧
    (⟨"A", 1, some ⟨64, 0⟩, some ⟨2024, 1, 2, 17, 6⟩⟩ : Entry).percentage_full =
      some ⟨64, 0⟩ := by
  refine ⟨by decide, ?_⟩
  exact (percentage_rules_amended ⟨"A Last Count: 1Updated: 01/02/2024 05:06 PM", some "64%"⟩
    ⟨"A", 1, some ⟨64, 0⟩, some ⟨2024, 1, 2, 17, 6⟩⟩ (by decide)).2.2.1 "64%" ⟨64, 0⟩
    rfl (by decide) (by decide)

/-- C7 (amended): the extracted name is the trimmed prefix of the fragment's
(trimmed) text before `"Last Count:"` when that prefix is non-empty, and the
literal `"Unknown"` when it is empty. -/
theorem name_unknown_fallback (f : Facility) (e : Entry) (he : extractFacility f = some e) :
    e.name = (if stripL ((splitL lcMark.data (stripL f.text.data)).headD []) = []
              then "Unknown"
              else ⟨stripL ((splitL lcMark.data (stripL f.text.data)).headD [])⟩) := by
  obtain ⟨part1, part2, pf, occ, upd, h1, h2, h3, h4, h5, hE⟩ := extractFacility_inv f e he
  rw [hE]
  show String.mk (nameOf f) = _
  by_cases hc : stripL ((splitL lcMark.data (stripL f.text.data)).headD []) = []
  · simp only [nameOf, if_pos hc]
    rfl
  · simp only [nameOf, if_neg hc]

/-- Witness for `name_unknown_fallback` at a concrete input. -/
theorem name_unknown_fallback_witness :
    (⟨"A", 5, none, some ⟨2024, 1, 1, 13, 0⟩⟩ : Entry).name =
      (if stripL ((splitL lcMark.data
            (stripL (" A  Last Count: 5Updated: 01/01/2024 01:00 PM" : String).data)).headD []) = []
        then "Unknown"
        else ⟨stripL ((splitL lcMark.data
            (stripL (" A  Last Count: 5Updated: 01/01/2024 01:00 PM" : String).data)).headD [])⟩) :=
  name_unknown_fallback ⟨" A  Last Count: 5Updated: 01/01/2024 01:00 PM", none⟩
    ⟨"A", 5, none, some ⟨2024, 1, 1, 13, 0⟩⟩ (by decide)

/-- C7 (counterexample to the claim as stated): a fragment whose text starts
at the marker has an empty trimmed prefix, yet the extracted name is the
fallback `"Unknown"`, not the empty prefix. -/
theorem empty_name_becomes_unknown :
    (extractFacility ⟨"Last Count: 5Updated: 01/01/2024 01:00 PM", none⟩).map Entry.name =
      some "Unknown" ∧
    stripL ((splitL lcMark.data
      (stripL ("Last Count: 5Updated: 01/01/2024 01:00 PM" : String).data)).headD []) = [] ∧
    ("Unknown" : String) ≠ ⟨[]⟩ := by decide

/-- C6: the updated-text parse — an empty trimmed string gives
`updated_at = None`; the rendering of any constructor-valid timestamp parses
back to exactly that timestamp; and anything `strptime` accepts is a
constructor-valid timestamp (everything else raises, a per-fragment parse
failure). -/
theorem updated_at_parse_correct :
    updOf [] = some none ∧
    (∀ dt : DT, validDT dt = true → updOf (formatDT dt) = some (some dt)) ∧
    (∀ (cs : List Char) (dt : DT), strptimeMDYHM cs = some dt → validDT dt = true) := by
  refine ⟨rfl, ?_, strptime_valid⟩
  intro dt hv
  have hne : formatDT dt ≠ [] := by
    obtain ⟨y, m, d, h, mi⟩ := dt
    simp [formatDT, pad2]
  unfold updOf
  rw [if_neg hne, strptime_format_roundtrip dt hv]
  rfl

/-- Witness for `updated_at_parse_correct` at a concrete timestamp. -/
theorem updated_at_parse_correct_witness :
    validDT ⟨2024, 1, 15, 15, 30⟩ = true ∧
    updOf (formatDT ⟨2024, 1, 15, 15, 30⟩) = some (some ⟨2024, 1, 15, 15, 30⟩) :=
  ⟨by decide, updated_at_parse_correct.2.1 ⟨2024, 1, 15, 15, 30⟩ (by decide)⟩

/-- C1 (amended): starting from a store with at most one record per gym,
reconciling a sequence of extracted entries once and then again with the
identical entries never yields two records for one gym; every gym whose last
matching entry carries a present `updated_at` ends with exactly one record
holding that entry's values (after either run); and gyms no entry resolves
to are untouched.  (An entry whose `updated_at` is absent fails its upsert —
`CrowdData.last_updated` is non-nullable — which is why the claim is
restricted to entries with a present `updated_at`.) -/
theorem reconcile_twice_unique_last_wins (reg : List Gym) (S : Store) (entries : List Entry)
    (hS : AtMostOne S) :
    AtMostOne (reconcileEntries reg S entries) ∧
    AtMostOne (reconcileEntries reg (reconcileEntries reg S entries) entries) ∧
    (∀ (g : Nat) (r : Resolved) (d : DT),
      ((entries.filterMap (resolveEntry reg)).filter (fun x => x.gym == g)).getLast? = some r →
      r.last_updated = some d →
      getRecords (reconcileEntries reg S entries) g = [⟨g, r.occupancy, r.percentage_full, d⟩] ∧
      getRecords (reconcileEntries reg (reconcileEntries reg S entries) entries) g =
        [⟨g, r.occupancy, r.percentage_full, d⟩]) ∧
    (∀ g : Nat, (∀ x ∈ entries.filterMap (resolveEntry reg), x.gym ≠ g) →
      getRecords (reconcileEntries reg (reconcileEntries reg S entries) entries) g =
        getRecords S g) := by
  have hS1 : AtMostOne (reconcileEntries reg S entries) := applyStore_amo _ _ hS
  have hS2 : AtMostOne (reconcileEntries reg (reconcileEntries reg S entries) entries) :=
    applyStore_amo _ _ hS1
  refine ⟨hS1, hS2, ?_, ?_⟩
  · intro g r d hlast hd
    exact ⟨applyStore_last_wins _ S g r d hS hlast hd,
      applyStore_last_wins _ _ g r d hS1 hlast hd⟩
  · intro g hfr
    have h2 := applyStore_frame (entries.filterMap (resolveEntry reg))
      (reconcileEntries reg S entries) g hfr
    have h1 := applyStore_frame (entries.filterMap (resolveEntry reg)) S g hfr
    exact h2.trans h1

/-- Witness for `reconcile_twice_unique_last_wins` at concrete inputs. -/
theorem reconcile_twice_unique_last_wins_witness :
    getRecords (reconcileEntries [⟨1, "A"⟩] []
        [⟨"A", 5, none, some ⟨2024, 1, 1, 13, 0⟩⟩,
         ⟨"A", 7, some ⟨64, 0⟩, some ⟨2024, 1, 2, 13, 0⟩⟩]) 1 =
      [⟨1, 7, some ⟨64, 0⟩, ⟨2024, 1, 2, 13, 0⟩⟩] ∧
    getRecords (reconcileEntries [⟨1, "A"⟩]
        (reconcileEntries [⟨1, "A"⟩] []
          [⟨"A", 5, none, some ⟨2024, 1, 1, 13, 0⟩⟩,
           ⟨"A", 7, some ⟨64, 0⟩, some ⟨2024, 1, 2, 13, 0⟩⟩])
        [⟨"A", 5, none, some ⟨2024, 1, 1, 13, 0⟩⟩,
         ⟨"A", 7, some ⟨64, 0⟩, some ⟨2024, 1, 2, 13, 0⟩⟩]) 1 =
      [⟨1, 7, some ⟨64, 0⟩, ⟨2024, 1, 2, 13, 0⟩⟩] :=
  (reconcile_twice_unique_last_wins [⟨1, "A"⟩] []
      [⟨"A", 5, none, some ⟨2024, 1, 1, 13, 0⟩⟩,
       ⟨"A", 7, some ⟨64, 0⟩, some ⟨2024, 1, 2, 13, 0⟩⟩]
      (fun _ => Nat.zero_le 1)).2.2.1 1
    ⟨1, 7, some ⟨64, 0⟩, some ⟨2024, 1, 2, 13, 0⟩⟩ ⟨2024, 1, 2, 13, 0⟩ (by decide) rfl

/-- C1 (counterexample to the claim as stated): an entry whose `updated_at`
is absent resolves to a matched gym, but its upsert violates the
non-nullable `last_updated` column and fails, so even after two identical
runs the matched gym has no occupancy record at all — not one record with
the entry's values. -/
theorem reconcile_missing_updated_at_drops_entry :
    resolveEntry [⟨1, "A"⟩] ⟨"A", 5, none, none⟩ = some ⟨1, 5, none, none⟩ ∧
    reconcileEntries [⟨1, "A"⟩] [] [⟨"A", 5, none, none⟩] = [] ∧
    reconcileEntries [⟨1, "A"⟩]
      (reconcileEntries [⟨1, "A"⟩] [] [⟨"A", 5, none, none⟩])
      [⟨"A", 5, none, none⟩] = [] := by decide

/-- No event is both an extraction iteration and an upsert attempt. -/
theorem scrapeEv_not_both (ev : ScrapeEv) (hx : ev.isExtract = true)
    (hu : ev.isUpsert = true) : False := by
  cases ev <;> simp [ScrapeEv.isExtract, ScrapeEv.isUpsert] at hx hu

/-- In a trace made of extraction events followed by upsert events, every
extraction position precedes every upsert position. -/
theorem append_extract_upsert_index (A B : List ScrapeEv)
    (hA : ∀ a ∈ A, a.isExtract = true) (hB : ∀ b ∈ B, b.isUpsert = true)
    (i j : Nat) (hi : i < (A ++ B).length) (hj : j < (A ++ B).length)
    (hx : ((A ++ B).get ⟨i, hi⟩).isExtract = true)
    (hu : ((A ++ B).get ⟨j, hj⟩).isUpsert = true) : i < j := by
  rw [List.get_eq_getElem] at hx hu
  have hiA : i < A.length := by
    by_contra hcon
    have hmem : (A ++ B)[i] ∈ B := by
      rw [List.getElem_append_right (by omega)]
      exact List.getElem_mem _
    exact scrapeEv_not_both _ hx (hB _ hmem)
  have hjB : ¬ (j < A.length) := by
    intro hcon
    have hmem : (A ++ B)[j] ∈ A := by
      rw [List.getElem_append_left hcon]
      exact List.getElem_mem _
    exact scrapeEv_not_both _ (hA _ hmem) hu
  omega

/-- C10: on every non-fatal run the chronological event trace is the full
sequence of extraction/lookup iterations (one per fragment, in document
order) followed by the upsert attempts (one per resolved entry, in the same
order); `data_list` is the in-order list of resolved fragments; hence no
upsert attempt ever precedes any extraction iteration. -/
theorem writes_after_all_extraction (reg : List Gym) (resp : FetchResponse) (S : Store)
    (out : ScrapeOutcome) (hok : scrape_gym_data reg resp S = Except.ok out) :
    out.trace = resp.facilities.map ScrapeEv.extractStep ++
      ((phase1 reg resp.facilities).entries).map ScrapeEv.upsertStep ∧
    (phase1 reg resp.facilities).entries = resp.facilities.filterMap (resolveFacility reg) ∧
    (∀ (i j : Nat) (hi : i < out.trace.length) (hj : j < out.trace.length),
      (out.trace.get ⟨i, hi⟩).isExtract = true →
      (out.trace.get ⟨j, hj⟩).isUpsert = true → i < j) := by
  have htr : out.trace = resp.facilities.map ScrapeEv.extractStep ++
      ((phase1 reg resp.facilities).entries).map ScrapeEv.upsertStep := by
    unfold scrape_gym_data at hok
    split at hok
    · cases hok
    · injection hok with hok
      rw [← hok]
      show (phase1 reg resp.facilities).trace ++
        (phase2 S (phase1 reg resp.facilities).entries).trace = _
      rw [phase1_trace_eq, phase2_trace_eq]
  refine ⟨htr, phase1_entries_eq reg resp.facilities, ?_⟩
  intro i j hi hj hx hu
  have hA : ∀ a ∈ resp.facilities.map ScrapeEv.extractStep, a.isExtract = true := by
    intro a ha
    obtain ⟨fc, _, hfe⟩ := List.mem_map.mp ha
    rw [← hfe]
    rfl
  have hB : ∀ b ∈ ((phase1 reg resp.facilities).entries).map ScrapeEv.upsertStep,
      b.isUpsert = true := by
    intro b hb
    obtain ⟨rr, _, hre⟩ := List.mem_map.mp hb
    rw [← hre]
    rfl
  revert hi hj hx hu
  rw [htr]
  intro hi hj hx hu
  exact append_extract_upsert_index _ _ hA hB i j hi hj hx hu

/-- Witness for `writes_after_all_extraction` at a concrete run. -/
theorem writes_after_all_extraction_witness :
    scrape_gym_data [⟨1, "A"⟩]
        ⟨200, [⟨"A Last Count: 7Updated: 01/02/2024 05:06 PM", none⟩]⟩ [] =
      Except.ok ⟨[⟨1, 7, none, ⟨2024, 1, 2, 17, 6⟩⟩], 1, 0, 0, 1, 0,
        [ScrapeEv.extractStep ⟨"A Last Count: 7Updated: 01/02/2024 05:06 PM", none⟩,
         ScrapeEv.upsertStep ⟨1, 7, none, some ⟨2024, 1, 2, 17, 6⟩⟩],
        PyReturn.pyNone⟩ ∧
    (0 : Nat) < 1 :=
  ⟨by decide,
   (writes_after_all_extraction [⟨1, "A"⟩]
      ⟨200, [⟨"A Last Count: 7Updated: 01/02/2024 05:06 PM", none⟩]⟩ []
      ⟨[⟨1, 7, none, ⟨2024, 1, 2, 17, 6⟩⟩], 1, 0, 0, 1, 0,
        [ScrapeEv.extractStep ⟨"A Last Count: 7Updated: 01/02/2024 05:06 PM", none⟩,
         ScrapeEv.upsertStep ⟨1, 7, none, some ⟨2024, 1, 2, 17, 6⟩⟩],
        PyReturn.pyNone⟩ (by decide)).2.2 0 1 (by decide) (by decide) (by decide) (by decide)⟩
